import Mathlib

/-!
Shallow embedding of `wb-toolsloader` (src/main.rs), a version-gated update
pipeline.  Pure helpers (version parsing, update decision, filename
transformation, volume grouping) are translated directly; the password-retry
loop of `main` is embedded as an explicit state machine driven by a script of
operator inputs and extraction outcomes.  Strings are modelled by Lean
`String` (a list of unicode scalar values); Rust's byte-lexicographic `String`
ordering coincides with code-point lexicographic order on UTF-8 data, which is
what `listCharLt` implements.  Rust `i32` parsing is modelled over `Int` with
the explicit range `[-2^31, 2^31 - 1]`.
-/

namespace WbToolsLoader

/-! ## Character and string helpers (models of Rust std behaviour) -/

/-- ASCII decimal digit test (Rust `char::is_ascii_digit`, and the model used
for the regex class in `transform_filename`). -/
def isAsciiDigit (c : Char) : Bool := '0' ≤ c && c ≤ '9'

/-- Whitespace as tested by Rust `str::trim` (restricted to the ASCII
white-space characters; the non-ASCII unicode spaces play no role in any
claim). -/
def isRustWhitespace (c : Char) : Bool :=
  c = ' ' || c = '\t' || c = '\n' || c = '\x0d' || c = '\x0b' || c = '\x0c'

/-- If `p` is a leading run of `cs`, return the remainder, else `none`.
Models "the string starts with `p`" together with stripping it. -/
def dropLead : List Char → List Char → Option (List Char)
  | [], cs => some cs
  | _ :: _, [] => none
  | p :: ps, c :: cs => if p = c then dropLead ps cs else none

/-- Model of Rust `str::trim` on the character list. -/
def trimChars (cs : List Char) : List Char :=
  ((cs.dropWhile isRustWhitespace).reverse.dropWhile isRustWhitespace).reverse

/-- Model of Rust `str::trim`. -/
def strTrim (s : String) : String := ⟨trimChars s.data⟩

/-- Model of Rust `str::starts_with` (`s` starts with `p`). -/
def strStartsWith (s p : String) : Bool := (dropLead p.data s.data).isSome

/-- Model of Rust `"...".split("--")`: non-overlapping left-to-right split on
the two-dash separator, accumulator style (`acc` holds the current piece,
reversed). -/
def splitOnDashes : List Char → List Char → List (List Char)
  | [], acc => [acc.reverse]
  | '-' :: '-' :: cs, acc => acc.reverse :: splitOnDashes cs []
  | c :: cs, acc => splitOnDashes cs (c :: acc)

/-- Value of a list of ASCII digits, most significant first. -/
def digitsToNat (ds : List Char) : Nat :=
  ds.foldl (fun a c => 10 * a + (c.toNat - 48)) 0

def i32Min : Int := -2147483648

def i32Max : Int := 2147483647

/-- Model of Rust `i32::from_str` / `str::parse::<i32>()`: an optional sign
followed by one or more ASCII digits, value within the `i32` range; anything
else (including overflow) fails. -/
def parseI32 (s : String) : Option Int :=
  let go : Int → List Char → Option Int := fun sgn ds =>
    if ds.isEmpty then none
    else if ds.all isAsciiDigit then
      let v : Int := sgn * (digitsToNat ds : Int)
      if i32Min ≤ v ∧ v ≤ i32Max then some v else none
    else none
  match s.data with
  | '+' :: rest => go 1 rest
  | '-' :: rest => go (-1) rest
  | cs => go 1 cs

/-- Code-point lexicographic order on character lists; on UTF-8 data this is
exactly Rust's byte-lexicographic `String` ordering. -/
def listCharLt : List Char → List Char → Bool
  | [], [] => false
  | [], _ :: _ => true
  | _ :: _, [] => false
  | a :: as, b :: bs =>
    if a.toNat < b.toNat then true
    else if a = b then listCharLt as bs
    else false

/-- Model of Rust `String` `<` (derived `Ord`). -/
def strLtb (a b : String) : Bool := listCharLt a.data b.data

/-! ## Version (src/main.rs lines 32-54) -/

/-- `struct Version { date: String, iteration: i32 }`. -/
structure Version where
  date : String
  iteration : Int
deriving DecidableEq, Repr

/-- The derived `Ord` on `Version`: lexicographic on `(date, iteration)`. -/
def Version.ltb (a b : Version) : Bool :=
  if strLtb a.date b.date then true
  else if a.date = b.date then decide (a.iteration < b.iteration)
  else false

/-- `Version::parse` (lines 39-49): trim, split on `"--"`, require exactly two
parts, parse the second as `i32`; errors are collapsed to `none`. -/
def Version.parse (s : String) : Option Version :=
  match splitOnDashes (trimChars s.data) [] with
  | [d, it] =>
    match parseI32 ⟨it⟩ with
    | some n => some ⟨⟨d⟩, n⟩
    | none => none
  | _ => none

/-- `Version::verdate_to_string` (lines 51-53). -/
def Version.verdate_to_string (v : Version) : String :=
  v.date ++ "--" ++ toString v.iteration

/-- The parts produced by the `"--"` split of the trimmed input, as strings
(the claim C7 vocabulary). -/
def splitVersion (s : String) : List String :=
  (splitOnDashes (trimChars s.data) []).map fun cs => (⟨cs⟩ : String)

/-- Modelled from the claim (refinement side of C7): the `"--"` split of the
trimmed input yields two parts and the second is a valid *non-negative*
integer (a nonempty run of decimal digits). -/
def claimVersionOk (s : String) : Bool :=
  match splitOnDashes (trimChars s.data) [] with
  | [_, it] => (!it.isEmpty) && it.all isAsciiDigit
  | _ => false

/-! ## Update decision (src/main.rs lines 66-89) -/

/-- ASCII lower-casing of one character (Rust `eq_ignore_ascii_case`). -/
def asciiLower (c : Char) : Char :=
  if 'A' ≤ c ∧ c ≤ 'Z' then Char.ofNat (c.toNat + 32) else c

/-- Model of Rust `str::eq_ignore_ascii_case`. -/
def eqIgnoreAsciiCase (a b : String) : Bool :=
  a.data.map asciiLower == b.data.map asciiLower

/-- `buffer.trim().eq_ignore_ascii_case("Y")`: how `should_update_package`
interprets the operator's console line as a yes. -/
def answersYes (line : String) : Bool := eqIgnoreAsciiCase (strTrim line) "Y"

/-- `should_update_package` (lines 66-89).  `answer` is the console line read
when a prompt occurs; the result is `(update, prompted)` where `prompted`
records whether the operator was asked at all. -/
def should_update_package (current : Option Version) (nv : Version)
    (answer : String) : Bool × Bool :=
  match current with
  | none => (true, false)
  | some c =>
    if c = nv then (answersYes answer, true)
    else if Version.ltb nv c then (answersYes answer, true)
    else (true, false)

/-! ## Filename transformation (src/main.rs lines 122-132) -/

/-- Rust `format!("{:03}", n)` for a non-negative number: decimal digits,
zero-padded on the left to width at least 3. -/
def pad3 (n : Nat) : String :=
  let s := Nat.repr n
  if s.length < 3 then (⟨List.replicate (3 - s.length) '0'⟩ : String) ++ s else s

/-- Character-list core of `transform_filename` (lines 122-128).  The regex
`--n(\d+)\.globby$` anchored at the end has a unique match (the digit run is
delimited by the literal `n` on its left and the literal suffix on its right),
so it is modelled by stripping, from the reversed list: the suffix
`.globby`, then a nonempty maximal digit run, then `n--`.  The captured digits
are parsed with `parse::<i32>()` (whose failure, e.g. overflow, yields `none`
via `.ok()?`), and the matched tail is replaced by `.7z.` plus the 3-digit
zero-padded value. -/
def transformChars (cs : List Char) : Option (List Char) :=
  match dropLead (".globby".data.reverse) cs.reverse with
  | none => none
  | some r1 =>
    let dsr := r1.takeWhile isAsciiDigit
    let r2 := r1.dropWhile isAsciiDigit
    if dsr.isEmpty then none
    else
      match dropLead ['n', '-', '-'] r2 with
      | none => none
      | some baseRev =>
        match parseI32 ⟨dsr.reverse⟩ with
        | some n => some (baseRev.reverse ++ (".7z." ++ pad3 n.toNat).data)
        | none => none

/-- `transform_filename` (lines 122-128). -/
def transform_filename (filename : String) : Option String :=
  (transformChars filename.data).map fun cs => (⟨cs⟩ : String)

/-- Modelled from the spec (refinement side of C8): the filename ends with
"two dashes, literal `n`, one or more digits, and the known multi-part suffix
`.globby`". -/
def matchesVolumePattern (f : String) : Bool :=
  match dropLead (".globby".data.reverse) f.data.reverse with
  | none => false
  | some r1 =>
    (!(r1.takeWhile isAsciiDigit).isEmpty) &&
      (dropLead ['n', '-', '-'] (r1.dropWhile isAsciiDigit)).isSome

/-- Characters of `cs` strictly before the first occurrence of `marker`; the
whole list when `marker` never occurs.  This is the first element of Rust
`cs.split(marker)`. -/
def takeUntilMarker (marker : List Char) : List Char → List Char
  | [] => []
  | c :: cs =>
    if (dropLead marker (c :: cs)).isSome then []
    else c :: takeUntilMarker marker cs

/-- Whether `marker` occurs as a contiguous sublist of the argument. -/
def hasMarker (marker : List Char) : List Char → Bool
  | [] => false
  | c :: cs => (dropLead marker (c :: cs)).isSome || hasMarker marker cs

/-- `get_base_name` (lines 130-132): `filename.split(".7z.").next()`, which is
always the part before the first `".7z."` occurrence (the split iterator is
never empty), wrapped in `Some` by the source. -/
def get_base_name (filename : String) : Option String :=
  some (⟨takeUntilMarker ".7z.".data filename.data⟩ : String)

/-! ## First-volume selection in extract_archives (src/main.rs lines 178-186) -/

/-- Model of Rust `Path::extension` on a file name: the portion after the last
`.`, provided some `.` occurs at a position other than the start (a leading
dot alone, as in `.gitignore`, yields `none`). -/
def pathExtension (filename : String) : Option String :=
  let r := filename.data.reverse
  let ext := r.takeWhile (fun c => c ≠ '.')
  match r.drop ext.length with
  | '.' :: before => if before.isEmpty then none else some (⟨ext.reverse⟩ : String)
  | _ => none

/-- The filter applied by `extract_archives` to each staged file (lines
180-185): the extension exists and *starts with* `"001"`. -/
def isFirstVolumeFile (f : String) : Bool :=
  match pathExtension f with
  | some e => strStartsWith e "001"
  | none => false

/-- The staged files that drive the per-group extraction loop (lines
178-186). -/
def firstVolumes (files : List String) : List String :=
  files.filter isFirstVolumeFile

/-- Modelled from the spec (refinement side of C9): the file's segment marker
(its extension) is exactly the canonical first-volume indicator `"001"`. -/
def isCanonicalFirstVolume (f : String) : Bool :=
  match pathExtension f with
  | some e => e == "001"
  | none => false

/-! ## Password-retry loop (src/main.rs lines 560-631)

The loop mutates two package-local variables, `retry_mode` and
`last_password` (both declared inside the per-package `for` body, lines
561-562).  Each iteration selects a password (possibly prompting the
operator), attempts extraction, and on error re-enters the loop.  Operator
console lines and extraction outcomes are scripted: one `IterInput` feeds one
iteration. -/

/-- Outcome of one `extract_archives` invocation as classified by the code:
success, the wrong-password error (line 209), a generic extraction failure
(lines 211-215), or the tool executable not found (lines 231-234). -/
inductive ExtractResult where
  | ok
  | wrongPassword
  | extractionFailed
  | toolMissing
deriving DecidableEq, Repr

/-- The two package-local mutable variables of the retry loop. -/
structure LoopState where
  retry_mode : Bool
  last_password : String
deriving DecidableEq, Repr

/-- One scripted loop iteration: the console line the operator would type if
prompted, and the result `extract_archives` would produce if an attempt is
made. -/
structure IterInput where
  line : String
  res : ExtractResult
deriving DecidableEq, Repr

/-- How the package's extraction phase can end: extraction succeeded (line
607), or the operator skipped the package with a blank password (lines
573-576 and 595-597).  `exhausted` is a model artifact meaning the script ran
out while the loop was still going. -/
inductive Outcome where
  | succeeded
  | skipped
  | exhausted
deriving DecidableEq, Repr

/-- The password-selection block (lines 565-601): returns the password used
for this attempt together with the updated state, or `none` when the package
is skipped (blank entry on a prompt that skips).  Branches, in source order:
configured password while not in retry mode; retry-mode prompt (blank skips,
otherwise `last_password` is set to the entry); previous-password prompt
(blank reuses `last_password`, otherwise it is overwritten); first prompt
(blank skips). -/
def selectPassword (cfg : String) (s : LoopState) (line : String) :
    Option (String × LoopState) :=
  if cfg ≠ "" ∧ s.retry_mode = false then
    some (cfg, s)
  else if s.retry_mode then
    let p := strTrim line
    if p = "" then none
    else some (p, { s with last_password := p })
  else if s.last_password ≠ "" then
    let p := strTrim line
    if p = "" then some (s.last_password, s)
    else some (p, { s with last_password := p })
  else
    let p := strTrim line
    if p = "" then none
    else some (p, { s with last_password := p })

/-- Result of one loop iteration: the loop terminated with an outcome, or it
continues with a new state. -/
inductive StepResult where
  | done (o : Outcome) (s : LoopState)
  | next (s : LoopState)
deriving DecidableEq, Repr

/-- One iteration of the retry loop (lines 564-621): select a password (a
blank entry on a skipping prompt breaks out, line 575/597), attempt
extraction, break on success (line 607); on any error (lines 609-619), if the
configured password was just tried for the first time, clear `last_password`
and enter retry mode (lines 611-615), otherwise just enter retry mode (lines
617-618).  The error handling does not inspect which error occurred. -/
def passwordStep (cfg : String) (s : LoopState) (inp : IterInput) : StepResult :=
  match selectPassword cfg s inp.line with
  | none => .done .skipped s
  | some (_, s') =>
    match inp.res with
    | .ok => .done .succeeded s'
    | _ =>
      if cfg ≠ "" ∧ s.retry_mode = false then
        .next { retry_mode := true, last_password := "" }
      else
        .next { s' with retry_mode := true }

/-- Run the retry loop on a script of iteration inputs. -/
def runLoop (cfg : String) : LoopState → List IterInput → Outcome × LoopState
  | s, [] => (.exhausted, s)
  | s, inp :: rest =>
    match passwordStep cfg s inp with
    | .done o s' => (o, s')
    | .next s' => runLoop cfg s' rest

/-- The states at which the loop consults its password-selection block, in
order, starting from `s`. -/
def loopStates (cfg : String) : LoopState → List IterInput → List LoopState
  | s, [] => [s]
  | s, inp :: rest =>
    match passwordStep cfg s inp with
    | .done _ _ => [s]
    | .next s' => s :: loopStates cfg s' rest

/-- The per-package retry loop as entered by `main`: `retry_mode` and
`last_password` are freshly initialised for every package (lines 561-562). -/
def processPackage (cfg : String) (script : List IterInput) : Outcome :=
  (runLoop cfg ⟨false, ""⟩ script).1

/-- The orchestrator's package `for` loop restricted to the extraction phase:
every package is processed in turn; no outcome of an earlier package stops a
later one (the loop body of lines 458-638 has no `break`). -/
def processAll (jobs : List (String × List IterInput)) : List Outcome :=
  jobs.map fun j => processPackage j.1 j.2

/-- Content of the package's `version.txt` after the extraction phase (lines
560-631): once the retry loop has terminated — by success *or* by skip —
`save_version_file` (line 624) unconditionally overwrites the record with the
new version; while the loop is still running (`exhausted` script) the stored
record is untouched. -/
def versionFileAfterLoop (cfg : String) (script : List IterInput)
    (stored : Option Version) (newV : Version) : Option Version :=
  match (runLoop cfg ⟨false, ""⟩ script).1 with
  | .exhausted => stored
  | _ => some newV

/-! ## Helper lemmas -/

theorem dropLead_self_append (p x : List Char) : dropLead p (p ++ x) = some x := by
  induction p with
  | nil => rfl
  | cons a as ih => simp [dropLead, ih]

theorem takeWhile_all_stop (q : Char → Bool) (u : List Char) (c : Char) (w : List Char)
    (hu : u.all q = true) (hc : q c = false) :
    (u ++ c :: w).takeWhile q = u := by
  induction u with
  | nil => simp [List.takeWhile, hc]
  | cons a as ih =>
    simp only [List.all_cons, Bool.and_eq_true] at hu
    simp [List.takeWhile, hu.1, ih hu.2]

theorem dropWhile_all_stop (q : Char → Bool) (u : List Char) (c : Char) (w : List Char)
    (hu : u.all q = true) (hc : q c = false) :
    (u ++ c :: w).dropWhile q = c :: w := by
  induction u with
  | nil => simp [List.dropWhile, hc]
  | cons a as ih =>
    simp only [List.all_cons, Bool.and_eq_true] at hu
    simp [List.dropWhile, hu.1, ih hu.2]

theorem takeUntilMarker_of_no_marker (m : List Char) (cs : List Char)
    (h : hasMarker m cs = false) : takeUntilMarker m cs = cs := by
  induction cs with
  | nil => rfl
  | cons c cs ih =>
    unfold hasMarker at h
    simp only [Bool.or_eq_false_iff] at h
    unfold takeUntilMarker
    simp [h.1, ih h.2]

theorem transformChars_volume (b ds : List Char) (hne : ¬ ds = [])
    (hall : ds.all isAsciiDigit = true) :
    transformChars (b ++ ('-' :: '-' :: 'n' :: ds) ++ ".globby".data) =
      match parseI32 ⟨ds⟩ with
      | some n => some (b ++ (".7z." ++ pad3 n.toNat).data)
      | none => none := by
  have hrev : (b ++ ('-' :: '-' :: 'n' :: ds) ++ ".globby".data).reverse =
      ".globby".data.reverse ++ (ds.reverse ++ ('n' :: '-' :: '-' :: b.reverse)) := by
    simp [List.reverse_append]
  have hallr : ds.reverse.all isAsciiDigit = true := by
    simpa using hall
  have hdig : isAsciiDigit 'n' = false := by decide
  have htake : (ds.reverse ++ 'n' :: '-' :: '-' :: b.reverse).takeWhile isAsciiDigit
      = ds.reverse := takeWhile_all_stop _ _ _ _ hallr hdig
  have hdrop : (ds.reverse ++ 'n' :: '-' :: '-' :: b.reverse).dropWhile isAsciiDigit
      = 'n' :: '-' :: '-' :: b.reverse := dropWhile_all_stop _ _ _ _ hallr hdig
  have hemp : ds.reverse.isEmpty = false := by
    cases hds : ds.reverse with
    | nil => exact absurd (by simpa using hds) hne
    | cons c cs => rfl
  have hlead : dropLead ['n', '-', '-'] ('n' :: '-' :: '-' :: b.reverse)
      = some b.reverse := by
    simp [dropLead]
  unfold transformChars
  rw [hrev, dropLead_self_append]
  simp only [htake, hdrop, hemp, hlead, List.reverse_reverse, Bool.false_eq_true,
    if_false]

theorem listCharLt_irrefl : ∀ l : List Char, listCharLt l l = false := by
  intro l
  induction l with
  | nil => rfl
  | cons a as ih => simp [listCharLt, ih]

theorem listCharLt_asymm : ∀ l m : List Char,
    listCharLt l m = true → listCharLt m l = false := by
  intro l
  induction l with
  | nil =>
    intro m h
    cases m with
    | nil => simp [listCharLt] at h
    | cons b bs => rfl
  | cons a as ih =>
    intro m h
    cases m with
    | nil => simp [listCharLt] at h
    | cons b bs =>
      unfold listCharLt at h ⊢
      by_cases hab : a.toNat < b.toNat
      · have h1 : ¬ b.toNat < a.toNat := Nat.lt_asymm hab
        have h2 : ¬ b = a := by
          intro e
          rw [e] at hab
          exact absurd hab (Nat.lt_irrefl _)
        simp [h1, h2]
      · rw [if_neg hab] at h
        by_cases heq : a = b
        · subst heq
          rw [if_pos rfl] at h
          simp [Nat.lt_irrefl, ih bs h]
        · rw [if_neg heq] at h
          exact absurd h (by simp)

theorem ltb_irrefl (v : Version) : Version.ltb v v = false := by
  unfold Version.ltb strLtb
  simp [listCharLt_irrefl]

theorem ltb_asymm (a b : Version) (h : Version.ltb a b = true) :
    Version.ltb b a = false := by
  unfold Version.ltb strLtb at h ⊢
  by_cases h1 : listCharLt a.date.data b.date.data = true
  · have h2 := listCharLt_asymm _ _ h1
    have h3 : ¬ b.date = a.date := by
      intro e
      rw [e] at h1
      rw [listCharLt_irrefl] at h1
      exact absurd h1 (by simp)
    simp [h2, h3]
  · rw [if_neg h1] at h
    by_cases he : a.date = b.date
    · rw [if_pos he] at h
      have hlt : a.iteration < b.iteration := of_decide_eq_true h
      rw [← he]
      simp [listCharLt_irrefl, lt_asymm hlt]
    · rw [if_neg he] at h
      exact absurd h (by simp)

theorem selectPassword_cfg (cfg : String) (s : LoopState) (line : String)
    (hcfg : ¬ cfg = "") (hr : s.retry_mode = false) :
    selectPassword cfg s line = some (cfg, s) := by
  simp [selectPassword, hcfg, hr]

theorem selectPassword_retry (cfg : String) (s : LoopState) (line : String)
    (hr : s.retry_mode = true) :
    selectPassword cfg s line =
      if strTrim line = "" then none
      else some (strTrim line, { s with last_password := strTrim line }) := by
  simp [selectPassword, hr]

theorem passwordStep_skip (cfg : String) (s : LoopState) (inp : IterInput)
    (hsel : selectPassword cfg s inp.line = none) :
    passwordStep cfg s inp = .done .skipped s := by
  simp [passwordStep, hsel]

theorem passwordStep_ok (cfg : String) (s : LoopState) (line p : String) (t : LoopState)
    (hsel : selectPassword cfg s line = some (p, t)) :
    passwordStep cfg s ⟨line, .ok⟩ = .done .succeeded t := by
  simp [passwordStep, hsel]

theorem passwordStep_err (cfg : String) (s : LoopState) (line p : String) (t : LoopState)
    (r : ExtractResult) (hsel : selectPassword cfg s line = some (p, t))
    (hr : ¬ r = .ok) :
    passwordStep cfg s ⟨line, r⟩ =
      if cfg ≠ "" ∧ s.retry_mode = false then .next ⟨true, ""⟩
      else .next { t with retry_mode := true } := by
  cases r with
  | ok => exact absurd rfl hr
  | wrongPassword => simp [passwordStep, hsel]
  | extractionFailed => simp [passwordStep, hsel]
  | toolMissing => simp [passwordStep, hsel]

theorem step_next_retry (cfg : String) (s : LoopState) (inp : IterInput) (s' : LoopState)
    (h : passwordStep cfg s inp = .next s') : s'.retry_mode = true := by
  obtain ⟨line, res⟩ := inp
  rcases hsel : selectPassword cfg s line with _ | ⟨p, t⟩
  · rw [passwordStep_skip cfg s ⟨line, res⟩ hsel] at h
    exact absurd h (by simp)
  · by_cases hres : res = ExtractResult.ok
    · subst hres
      rw [passwordStep_ok cfg s line p t hsel] at h
      exact absurd h (by simp)
    · rw [passwordStep_err cfg s line p t res hsel hres] at h
      split at h <;> simp only [StepResult.next.injEq] at h <;> rw [← h]

theorem select_retry_manual (cfg : String) (s : LoopState) (line p : String)
    (t : LoopState) (hr : s.retry_mode = true)
    (h : selectPassword cfg s line = some (p, t)) : p = strTrim line := by
  rw [selectPassword_retry cfg s line hr] at h
  by_cases hline : strTrim line = ""
  · rw [if_pos hline] at h
    exact absurd h (by simp)
  · rw [if_neg hline] at h
    simp only [Option.some.injEq, Prod.mk.injEq] at h
    exact h.1.symm

theorem loopStates_inv (cfg : String) (script : List IterInput) :
    ∀ (s t : LoopState),
      (s.retry_mode = false → s.last_password = "") →
      t ∈ loopStates cfg s script →
      t.retry_mode = false → t.last_password = "" := by
  induction script with
  | nil =>
    intro s t hs ht
    simp only [loopStates, List.mem_singleton] at ht
    subst ht; exact hs
  | cons inp rest ih =>
    intro s t hs ht
    unfold loopStates at ht
    cases hstep : passwordStep cfg s inp with
    | done o s' =>
      rw [hstep] at ht
      simp only [List.mem_singleton] at ht
      subst ht; exact hs
    | next s' =>
      rw [hstep] at ht
      simp only [List.mem_cons] at ht
      rcases ht with ht | ht
      · subst ht; exact hs
      · refine ih s' t ?_ ht
        intro hf
        rw [step_next_retry cfg s inp s' hstep] at hf
        exact absurd hf (by simp)

/-! ## Claims -/

/-- C1 — the claim says `version.txt` is written only after a fully successful
extraction, and that a skipped extraction (blank password) leaves the stored
record unchanged.  The code violates this: `save_version_file` (line 624) runs
unconditionally once the retry loop exits, and the loop also exits when the
operator skips the package with a blank password.  At the failing input below
(no configured password, operator enters a blank line, stored record
`2024-01-01--1`, new remote version `2024-02-02--2`) the loop ends in
`skipped` with no extraction attempt, yet the stored record is overwritten
with the new version. -/
theorem claim_C1_bug :
    (runLoop "" ⟨false, ""⟩ [⟨"", .ok⟩]).1 = .skipped ∧
    versionFileAfterLoop "" [⟨"", .ok⟩] (some ⟨"2024-01-01", 1⟩) ⟨"2024-02-02", 2⟩
      = some ⟨"2024-02-02", 2⟩ := by
  constructor
  · rfl
  · rfl

/-- C2 counterexample — the claim says `ExternalToolMissingError` is fatal to
the whole run.  Concretely: in package 1 the tool-missing failure merely puts
the loop into retry mode and prompts again (first conjunct), and after package
1 is skipped, package 2 is still processed and even succeeds (second
conjunct), so the orchestrator neither stops nor avoids retrying. -/
theorem claim_C2_cex :
    passwordStep "" ⟨false, ""⟩ ⟨"x", .toolMissing⟩ = .next ⟨true, "x"⟩ ∧
    processAll [("", [⟨"x", .toolMissing⟩, ⟨"", .ok⟩]), ("", [⟨"p", .ok⟩])]
      = [.skipped, .succeeded] := by
  constructor
  · rfl
  · rfl

/-- C2 amended — the code signals the tool-missing failure from
`extract_archives`, but `main`'s retry loop handles it exactly like a generic
extraction failure (the `Err` arm at lines 609-619 does not inspect the
error), so the run is not halted: the loop behaves identically on
`toolMissing` and on `extractionFailed` in every state. -/
theorem claim_C2_amended :
    ∀ (cfg : String) (s : LoopState) (line : String),
      passwordStep cfg s ⟨line, .toolMissing⟩
        = passwordStep cfg s ⟨line, .extractionFailed⟩ := by
  intro cfg s line
  unfold passwordStep
  rcases selectPassword cfg s line with _ | ⟨p, t⟩ <;> rfl

/-- C3 counterexample — the claim says `lastPassword` is mutated only on a
*successful* extraction that used a manual password.  Concretely: from the
initial state, a manually entered password `"abc"` whose extraction attempt
fails with a wrong-password error still ends the iteration with
`last_password = "abc"` (it is stored at prompt time, before the attempt), so
the variable is mutated without any successful extraction. -/
theorem claim_C3_cex :
    passwordStep "" ⟨false, ""⟩ ⟨"abc", .wrongPassword⟩ = .next ⟨true, "abc"⟩ := by
  rfl

/-- C3 amended — `last_password` is package-scoped, not run-scoped: it is
re-initialised to `""` for every package (lines 561-562, modelled by
`processPackage` starting at `⟨false, ""⟩`), and within a package (1) every
state at which the loop selects a password satisfies `retry_mode = false →
last_password = ""`, so the previous-password reuse branch (lines 579-588) is
unreachable; and (2) in retry mode the stored password after a failed attempt
is the trimmed manual entry of that attempt, i.e. it is mutated on entry
regardless of the attempt's outcome. -/
theorem claim_C3_amended :
    (∀ (cfg : String) (script : List IterInput) (t : LoopState),
        t ∈ loopStates cfg ⟨false, ""⟩ script →
        t.retry_mode = false → t.last_password = "") ∧
    (∀ (cfg : String) (s : LoopState) (line : String) (r : ExtractResult)
        (s' : LoopState),
        s.retry_mode = true → passwordStep cfg s ⟨line, r⟩ = .next s' →
        s'.last_password = strTrim line) := by
  constructor
  · intro cfg script t ht
    exact loopStates_inv cfg script ⟨false, ""⟩ t (fun _ => rfl) ht
  · intro cfg s line r s' hr h
    have hself := selectPassword_retry cfg s line hr
    by_cases hline : strTrim line = ""
    · rw [if_pos hline] at hself
      rw [passwordStep_skip cfg s ⟨line, r⟩ hself] at h
      exact absurd h (by simp)
    · rw [if_neg hline] at hself
      by_cases hres : r = ExtractResult.ok
      · subst hres
        rw [passwordStep_ok cfg s line _ _ hself] at h
        exact absurd h (by simp)
      · rw [passwordStep_err cfg s line _ _ r hself hres] at h
        rw [if_neg (by simp [hr])] at h
        simp only [StepResult.next.injEq] at h
        rw [← h]

/-- C3 amended, witness: concretely, the state `⟨false, ""⟩` is among the
selection states of the empty script, and a failed retry-mode attempt with
entry `"abc"` stores `"abc"`. -/
theorem claim_C3_amended_witness :
    (⟨false, ""⟩ : LoopState).last_password = "" ∧
    (⟨true, "abc"⟩ : LoopState).last_password = strTrim "abc" := by
  constructor
  · exact claim_C3_amended.1 "" [] ⟨false, ""⟩ (by simp [loopStates]) rfl
  · exact claim_C3_amended.2 "" ⟨true, "old"⟩ "abc" .wrongPassword ⟨true, "abc"⟩
      rfl (by rfl)

/-- C4 counterexample — the claim says a non-wrong-password extraction failure
aborts the package's extraction with no further retry attempts.  Concretely:
after a generic extraction failure on the first manually entered password, the
loop prompts again and a second attempt runs and even succeeds, so the step
was retried rather than failed outright. -/
theorem claim_C4_cex :
    runLoop "" ⟨false, ""⟩ [⟨"a", .extractionFailed⟩, ⟨"b", .ok⟩]
      = (.succeeded, ⟨true, "b"⟩) := by
  rfl

/-- C4 amended — the retry loop does not distinguish failure kinds: on any
extraction failure (wrong-password or not) it either ends the package as
skipped (only when a skipping prompt got a blank entry, in which case no
attempt was made) or continues into retry mode for another prompted attempt;
a package's extraction phase never fails outright. -/
theorem claim_C4_amended :
    ∀ (cfg : String) (s : LoopState) (line : String) (r : ExtractResult),
      ¬ r = ExtractResult.ok →
      passwordStep cfg s ⟨line, r⟩ = .done .skipped s ∨
      ∃ s', passwordStep cfg s ⟨line, r⟩ = .next s' ∧ s'.retry_mode = true := by
  intro cfg s line r hr
  rcases hsel : selectPassword cfg s line with _ | ⟨p, t⟩
  · exact Or.inl (passwordStep_skip cfg s ⟨line, r⟩ hsel)
  · right
    rw [passwordStep_err cfg s line p t r hsel hr]
    by_cases hc : cfg ≠ "" ∧ s.retry_mode = false
    · exact ⟨_, by rw [if_pos hc], rfl⟩
    · exact ⟨_, by rw [if_neg hc], rfl⟩

/-- C4 amended, witness: a generic extraction failure on a manual first-prompt
entry continues into retry mode. -/
theorem claim_C4_amended_witness :
    passwordStep "" ⟨false, ""⟩ ⟨"a", .extractionFailed⟩ = .done .skipped ⟨false, ""⟩ ∨
    ∃ s', passwordStep "" ⟨false, ""⟩ ⟨"a", .extractionFailed⟩ = .next s' ∧
      s'.retry_mode = true :=
  claim_C4_amended "" ⟨false, ""⟩ "a" .extractionFailed (by simp)

/-- C5 — once the configured password has failed one attempt: (1) the failure
transition from the configured attempt clears the remembered password and
enters retry mode; (2) retry mode is preserved by every continuing step, so
the configured branch (which requires `retry_mode = false`) is never used
again for this package; (3) in retry mode every attempted password is exactly
the trimmed manual console entry. -/
theorem claim_C5 :
    (∀ (cfg lp line : String) (r : ExtractResult), ¬ cfg = "" → ¬ r = ExtractResult.ok →
        passwordStep cfg ⟨false, lp⟩ ⟨line, r⟩ = .next ⟨true, ""⟩) ∧
    (∀ (cfg : String) (s : LoopState) (inp : IterInput) (s' : LoopState),
        passwordStep cfg s inp = .next s' → s'.retry_mode = true) ∧
    (∀ (cfg : String) (s : LoopState) (line p : String) (t : LoopState),
        s.retry_mode = true → selectPassword cfg s line = some (p, t) →
        p = strTrim line) := by
  refine ⟨?_, step_next_retry, select_retry_manual⟩
  intro cfg lp line r hcfg hr
  rw [passwordStep_err cfg ⟨false, lp⟩ line cfg ⟨false, lp⟩ r
    (selectPassword_cfg cfg ⟨false, lp⟩ line hcfg rfl) hr]
  rw [if_pos ⟨hcfg, rfl⟩]

/-- C5 witness: the configured password `"cfgpw"` fails once with a
wrong-password error; the step clears the remembered password and enters
retry mode, and a retry-mode selection uses the manual entry. -/
theorem claim_C5_witness :
    passwordStep "cfgpw" ⟨false, "old"⟩ ⟨"ignored", .wrongPassword⟩ = .next ⟨true, ""⟩ ∧
    (⟨true, ""⟩ : LoopState).retry_mode = true ∧
    "manual" = strTrim "manual" := by
  refine ⟨?_, ?_, ?_⟩
  · exact claim_C5.1 "cfgpw" "old" "ignored" .wrongPassword (by simp) (by simp)
  · exact claim_C5.2.1 "cfgpw" ⟨false, "old"⟩ ⟨"ignored", .wrongPassword⟩
      ⟨true, ""⟩ (by rfl)
  · exact claim_C5.2.2 "" ⟨true, "x"⟩ "manual" "manual" ⟨true, "manual"⟩ rfl (by rfl)

/-- C9 counterexample — the claim says only files whose segment marker equals
`"001"` start an extraction group.  Concretely: `"a.7z.0012"` has extension
`"0012"`, which is not the canonical marker `"001"`, yet the filter of
`extract_archives` (which tests `starts_with("001")`) selects it as a group
starter. -/
theorem claim_C9_cex :
    firstVolumes ["a.7z.0012"] = ["a.7z.0012"] ∧
    isCanonicalFirstVolume "a.7z.0012" = false := by
  constructor
  · rfl
  · rfl

/-- C9 amended — the extraction loop is driven by exactly the staged files
whose extension *starts with* `"001"` (so e.g. extension `"0012"` also starts
a group); in particular every file whose marker is exactly `"001"` is
selected. -/
theorem claim_C9_amended :
    (∀ (files : List String) (f : String),
        f ∈ firstVolumes files ↔ f ∈ files ∧ isFirstVolumeFile f = true) ∧
    (∀ f : String, isCanonicalFirstVolume f = true → isFirstVolumeFile f = true) := by
  constructor
  · intro files f
    exact List.mem_filter
  · intro f h
    unfold isCanonicalFirstVolume at h
    unfold isFirstVolumeFile
    cases hext : pathExtension f with
    | none => rw [hext] at h; simp at h
    | some e =>
      rw [hext] at h
      have he : e = "001" := by simpa using h
      rw [he]
      rfl

/-- C9 amended, witness: `"a.7z.001"` is selected from a concrete staging
listing, and its canonical marker implies selection. -/
theorem claim_C9_witness :
    ("a.7z.001" ∈ firstVolumes ["a.7z.001", "b.txt"]) ∧
    isFirstVolumeFile "a.7z.001" = true := by
  constructor
  · exact (claim_C9_amended.1 ["a.7z.001", "b.txt"] "a.7z.001").mpr
      ⟨by simp, by rfl⟩
  · exact claim_C9_amended.2 "a.7z.001" (by rfl)

/-- C10 — `get_base_name` is total: it returns `some` for every filename, and
when the filename contains no `".7z."` marker the result is the whole
filename unchanged. -/
theorem claim_C10 :
    ∀ f : String,
      (∃ b, get_base_name f = some b) ∧
      (hasMarker ".7z.".data f.data = false → get_base_name f = some f) := by
  intro f
  constructor
  · exact ⟨_, rfl⟩
  · intro h
    unfold get_base_name
    rw [takeUntilMarker_of_no_marker _ _ h]

/-- C10 witness: a plain, non-volume filename is returned unchanged. -/
theorem claim_C10_witness :
    get_base_name "plainfile.txt" = some "plainfile.txt" :=
  (claim_C10 "plainfile.txt").2 (by rfl)

/-- C6 — the update decision table of `should_update_package`: no local
version gives `update = true` with no prompt; a local version equal to the
remote prompts and updates exactly when the operator's line answers yes; a
local version greater than the remote prompts and downgrades exactly when the
line answers yes; a local version less than the remote updates
unconditionally, without a prompt. -/
theorem claim_C6 :
    ∀ (nv : Version) (ans : String),
      should_update_package none nv ans = (true, false) ∧
      (∀ c : Version, c = nv →
          should_update_package (some c) nv ans = (answersYes ans, true)) ∧
      (∀ c : Version, Version.ltb nv c = true →
          should_update_package (some c) nv ans = (answersYes ans, true)) ∧
      (∀ c : Version, Version.ltb c nv = true →
          should_update_package (some c) nv ans = (true, false)) := by
  intro nv ans
  refine ⟨rfl, ?_, ?_, ?_⟩
  · intro c h
    subst h
    simp [should_update_package]
  · intro c h
    have hne : ¬ c = nv := by
      intro e
      rw [e] at h
      rw [ltb_irrefl] at h
      exact absurd h (by simp)
    simp [should_update_package, hne, h]
  · intro c h
    have hne : ¬ c = nv := by
      intro e
      rw [e] at h
      rw [ltb_irrefl] at h
      exact absurd h (by simp)
    have hna : Version.ltb nv c = false := ltb_asymm c nv h
    simp [should_update_package, hne, hna]

/-- C6 witness: with local `2024-01-15--3` strictly older than remote
`2024-02-01--0`, the decision is update without a prompt, whatever line the
operator would have typed. -/
theorem claim_C6_witness :
    should_update_package (some ⟨"2024-01-15", 3⟩) ⟨"2024-02-01", 0⟩ "n"
      = (true, false) :=
  (claim_C6 ⟨"2024-02-01", 0⟩ "n").2.2.2 ⟨"2024-01-15", 3⟩ (by rfl)

/-- C7 counterexample — the claim says `parse` fails exactly when the second
part of the `"--"` split is not a valid *non-negative* integer.  Concretely:
on `"2024-01-15---3"` the split yields `["2024-01-15", "-3"]`, whose second
part is negative (so the claim demands a `FormatError`), yet the code's
`parse::<i32>()` accepts the sign and the parse succeeds with
`iteration = -3`. -/
theorem claim_C7_cex :
    claimVersionOk "2024-01-15---3" = false ∧
    Version.parse "2024-01-15---3" = some ⟨"2024-01-15", -3⟩ := by
  constructor
  · rfl
  · rfl

/-- C7 amended — `Version.parse` succeeds exactly when the `"--"` split of
the trimmed input yields two parts and the second parses as a *signed 32-bit*
integer (so negative iterations are accepted and out-of-range values are
rejected); on success the result is the first part as date and the parsed
value as iteration. -/
theorem claim_C7_amended :
    ∀ s : String,
      ((Version.parse s).isSome = true ↔
        ∃ d it, splitVersion s = [d, it] ∧ (parseI32 it).isSome = true) ∧
      (∀ (d it : String) (n : Int), splitVersion s = [d, it] →
          parseI32 it = some n → Version.parse s = some ⟨d, n⟩) := by
  intro s
  rcases hsplit : splitOnDashes (trimChars s.data) [] with _ | ⟨x, tl⟩
  · constructor
    · simp [Version.parse, splitVersion, hsplit]
    · intro d it n heq hn
      simp [splitVersion, hsplit] at heq
  · rcases tl with _ | ⟨y, tl2⟩
    · constructor
      · simp [Version.parse, splitVersion, hsplit]
      · intro d it n heq hn
        simp [splitVersion, hsplit] at heq
    · rcases tl2 with _ | ⟨z, rest⟩
      · constructor
        · cases hp : parseI32 (⟨y⟩ : String) with
          | none => simp [Version.parse, splitVersion, hsplit, hp]
          | some n =>
            constructor
            · intro _
              exact ⟨(⟨x⟩ : String), (⟨y⟩ : String),
                by simp [splitVersion, hsplit], by simp [hp]⟩
            · intro _
              simp [Version.parse, hsplit, hp]
        · intro d it n heq hn
          simp only [splitVersion, hsplit, List.map_cons, List.map_nil,
            List.cons.injEq, and_true] at heq
          obtain ⟨hd, hit⟩ := heq
          subst hd
          subst hit
          simp [Version.parse, hsplit, hn]
      · constructor
        · simp [Version.parse, splitVersion, hsplit]
        · intro d it n heq hn
          simp [splitVersion, hsplit] at heq

/-- C7 amended, witness: the well-formed token `"2024-01-15--3"` parses to
date `"2024-01-15"` and iteration `3`. -/
theorem claim_C7_witness :
    Version.parse "2024-01-15--3" = some ⟨"2024-01-15", 3⟩ :=
  (claim_C7_amended "2024-01-15--3").2 "2024-01-15" "3" 3 (by rfl) (by rfl)

/-- C8 counterexample — the claim says `transform` returns `Some` *exactly*
when the name ends with "two dashes, literal `n`, one or more digits, and the
known suffix".  Concretely: `"pkg--n2147483648.globby"` matches that pattern,
but the captured digits overflow `i32` so `parse::<i32>().ok()?` fails and the
function returns `None`. -/
theorem claim_C8_cex :
    matchesVolumePattern "pkg--n2147483648.globby" = true ∧
    transform_filename "pkg--n2147483648.globby" = none := by
  constructor
  · rfl
  · rfl

/-- C8 amended — for every filename of the form
`<base>--n<digits>.globby` (nonempty digit run): if the digits parse within
the `i32` range the result rewrites the trailing pattern to
`<base>.7z.<3-digit zero-padded index>`; if they overflow, the result is
`None`; and every filename not matching the pattern yields `None`. -/
theorem claim_C8_amended :
    (∀ (b : String) (ds : List Char) (n : Int),
        ¬ ds = [] → ds.all isAsciiDigit = true → parseI32 ⟨ds⟩ = some n →
        transform_filename (b ++ "--n" ++ (⟨ds⟩ : String) ++ ".globby")
          = some (b ++ ".7z." ++ pad3 n.toNat)) ∧
    (∀ (b : String) (ds : List Char),
        ¬ ds = [] → ds.all isAsciiDigit = true → parseI32 ⟨ds⟩ = none →
        transform_filename (b ++ "--n" ++ (⟨ds⟩ : String) ++ ".globby") = none) ∧
    (∀ f : String, matchesVolumePattern f = false →
        transform_filename f = none) := by
  have hdata : ∀ (b : String) (ds : List Char),
      (b ++ "--n" ++ (⟨ds⟩ : String) ++ ".globby").data
        = b.data ++ ('-' :: '-' :: 'n' :: ds) ++ ".globby".data := by
    intro b ds
    have h1 : "--n".data = ['-', '-', 'n'] := rfl
    simp [String.data_append, h1, List.append_assoc]
  refine ⟨?_, ?_, ?_⟩
  · intro b ds n hne hall hp
    unfold transform_filename
    rw [hdata b ds, transformChars_volume b.data ds hne hall, hp]
    simp only [Option.map_some']
    apply congrArg some
    apply String.ext
    simp [String.data_append, List.append_assoc]
  · intro b ds hne hall hp
    unfold transform_filename
    rw [hdata b ds, transformChars_volume b.data ds hne hall, hp]
    rfl
  · intro f h
    unfold matchesVolumePattern at h
    unfold transform_filename transformChars
    cases hlead : dropLead (".globby".data.reverse) f.data.reverse with
    | none => rfl
    | some r1 =>
      rw [hlead] at h
      by_cases hemp : (r1.takeWhile isAsciiDigit).isEmpty = true
      · simp [hemp]
      · rw [Bool.not_eq_true] at hemp
        simp only [hemp, Bool.not_false, Bool.true_and] at h
        cases hopt : dropLead ['n', '-', '-'] (r1.dropWhile isAsciiDigit) with
        | some v =>
          rw [hopt] at h
          simp at h
        | none =>
          simp [hemp, hopt]

/-- C8 amended, witness: `"pkg--n42.globby"` is rewritten to
`"pkg.7z.042"`. -/
theorem claim_C8_witness :
    transform_filename ("pkg" ++ "--n" ++ (⟨['4', '2']⟩ : String) ++ ".globby")
      = some ("pkg" ++ ".7z." ++ pad3 (Int.toNat 42)) :=
  claim_C8_amended.1 "pkg" ['4', '2'] 42 (by simp) (by rfl) (by rfl)

end WbToolsLoader
